import Mathlib

set_option maxHeartbeats 1000000

/-!
Shallow embedding of the reddit-to-slack pipeline (src/reddit.py).

Python strings are modelled as lists of characters.  External effects are
made explicit: the praw constructor outcome, each subreddit hot listing, the
oracle response per candidate and the webhook outcome per call are inputs of
the model (a `World`), and the observable actions of a run are returned as
data (`RunResult`).
-/

namespace RedditToSlack

/-- Python str.lower, character by character (ASCII range). -/
def pyLower (s : List Char) : List Char := s.map Char.toLower

/-- Python str.strip: drop whitespace from both ends. -/
def pyStrip (s : List Char) : List Char :=
  ((s.dropWhile Char.isWhitespace).reverse.dropWhile Char.isWhitespace).reverse

/-- Python substring test, the `in` operator on strings. -/
def isSubstr (needle : List Char) : List Char → Bool
  | [] => needle.isEmpty
  | c :: rest => needle.isPrefixOf (c :: rest) || isSubstr needle rest

/-- The digit characters of a string, as in filter(str.isdigit, s). -/
def extractDigits (s : List Char) : List Char := s.filter Char.isDigit

/-- Python int() applied to a string of decimal digits (left-to-right Horner). -/
def pyInt (ds : List Char) : Int :=
  ds.foldl (fun n c => 10 * n + ((c.toNat - 48 : Nat) : Int)) 0

/-- A post as obtained from a subreddit hot listing. -/
structure RawPost where
  title : List Char
  selftext : List Char
  url : List Char
  permalink : List Char
  deriving DecidableEq

/-- The dict built by fetch_matching_posts for a matching post. -/
structure Candidate where
  title : List Char
  subreddit : List Char
  url : List Char
  permalink : List Char
  text : List Char
  deriving DecidableEq

/-- Candidate built from a raw post: original title, source name, url, the
permalink prefixed with the site domain, and the lowercased combined text. -/
def toCandidate (subredditName : List Char) (post : RawPost) : Candidate :=
  ⟨post.title, subredditName, post.url,
    ("https://reddit.com").data ++ post.permalink,
    pyLower (post.title ++ ' ' :: post.selftext)⟩

/-- fetch_matching_posts: scans the posts the source yielded.  The hot listing
is modelled as the posts the iterator produced before finishing or raising,
together with a flag recording whether it ended by raising; the except block
only logs, so the matches accumulated so far are returned either way. -/
def fetch_matching_posts (subredditName : List Char) (keywords : List (List Char))
    (hot : List RawPost × Bool) : List Candidate :=
  hot.1.foldl
    (fun acc post =>
      if keywords.any (fun k => isSubstr k (pyLower (post.title ++ ' ' :: post.selftext)))
      then acc ++ [toCandidate subredditName post]
      else acc)
    []

/-- score_post_with_ai: the oracle argument yields the response text of the
single chat-completion call made for a post, or none when the call raises.
The digits of the stripped response are parsed with int(); int of an empty
string raises, and every exception path returns 0. -/
def score_post_with_ai (oracle : Candidate → Option (List Char)) (post : Candidate) : Int :=
  match oracle post with
  | none => 0
  | some response =>
      let ds := extractDigits (pyStrip response)
      if ds.isEmpty then 0 else pyInt ds

/-- One step of Python list.sort(reverse=True, key=fst): the new element is
placed before the first strictly smaller key, hence after all existing equal
keys, which is exactly the stable descending order. -/
def insertDesc {α : Type} (x : Int × α) : List (Int × α) → List (Int × α)
  | [] => [x]
  | y :: ys => if y.1 < x.1 then x :: y :: ys else y :: insertDesc x ys

/-- Python list.sort(reverse=True, key=fst): stable descending sort on the key,
obtained by inserting the elements left to right. -/
def sortDesc {α : Type} (l : List (Int × α)) : List (Int × α) :=
  l.foldl (fun acc x => insertDesc x acc) []

def POST_LIMIT : Nat := 20

def MAX_POSTS_PER_DAY : Nat := 10

/-- filter_with_ai: scores every post, keeps the strictly positive scores,
sorts descending by score (stable), truncates to max_results, drops scores. -/
def filter_with_ai (score : Candidate → Int) (posts : List Candidate)
    (max_results : Nat) : List Candidate :=
  let scored := posts.foldl
    (fun acc post => if 0 < score post then acc ++ [(score post, post)] else acc) []
  ((sortDesc scored).take max_results).map Prod.snd

/-- Result of one requests.post call to the webhook: a status code, or a
raised transport exception. -/
inductive SlackResult : Type
  | ok (status : Nat) : SlackResult
  | exn : SlackResult
  deriving DecidableEq

/-- Message text built by send_to_slack for one candidate. -/
def formatMessage (post : Candidate) : List Char :=
  '*' :: post.title ++ ("*\nSubreddit: r/").data ++ post.subreddit
    ++ ("\n<").data ++ post.permalink ++ ("|View on Reddit>").data

/-- send_to_slack as a trace: the loop posts one message per candidate in
order; the slack argument yields the outcome of the i-th call; non-200 and
raised calls are only logged and the loop continues.  The function returns no
success count; its trace of calls is the model of its effects. -/
def send_to_slack (slack : Nat → SlackResult) (posts : List Candidate) :
    List (List Char × SlackResult) :=
  (posts.foldl
    (fun st post => (st.1 ++ [(formatMessage post, slack st.2)], st.2 + 1))
    ([], 0)).1

def SUBREDDITS : List (List Char) :=
  ["Netherlands", "Belgium", "France", "Sweden", "Denmark", "Europe",
   "germany", "Amsterdam", "thehague", "Rotterdam", "Utrecht", "Brussels",
   "Paris", "London", "Antwerpen", "luxembourg", "milano", "rome",
   "ZeroWaste", "ThriftStoreHauls", "BuyItForLife", "Frugal", "Minimalism",
   "SustainableLiving", "SecondHand", "InteriorDesign", "interiordecorating",
   "DesignMyRoom", "MaleLivingSpace", "FemaleLivingSpace", "HomeDecorating",
   "CozyPlaces", "RoomPorn", "amateurroomporn", "HomeImprovement", "DIY",
   "ApartmentHacks", "ScandinavianInterior", "furniture", "Mid_Century",
   "WhatIsThisThing"].map String.data

def KEYWORDS : List (List Char) :=
  ["secondhand", "second-hand", "thrift", "thrifted", "vintage", "used",
   "pre-owned", "preloved", "pre-loved", "reclaimed", "upcycled", "repurposed",
   "handmade", "antique", "restored", "retro", "sustainable", "eco-friendly",
   "eco friendly", "zero waste", "minimalist", "minimalism", "buy it for life",
   "durable", "timeless", "reuse", "resale", "interior", "interior design",
   "home decor", "furniture", "sofa", "table", "chair", "cabinet", "dresser",
   "sideboard", "dining set", "lamp", "rug", "mirror", "art", "poster",
   "wall decor", "shelving", "bookshelf", "tv stand", "bed", "bed frame",
   "nightstand", "storage", "cozy", "scandinavian", "mid-century", "boho",
   "eclectic", "apartment", "renovation", "remodel", "decorating"].map String.data

/-- External behaviour of one run: outcome of the praw constructor, the hot
listing of each subreddit (posts yielded before the iteration completed or
raised, and whether it raised), the oracle response per candidate, and the
webhook outcome per call. -/
structure World where
  redditSetup : Except String Unit
  hot : List Char → List RawPost × Bool
  oracle : Candidate → Option (List Char)
  slack : Nat → SlackResult

/-- Observable result of main: the outcome of the run, the subreddits scanned,
the webhook calls made, and the count announced by the final log line. -/
structure RunResult where
  outcome : Except String Unit
  scanned : List (List Char)
  slackCalls : List (List Char × SlackResult)
  sentLog : Option Nat

/-- Collection loop of main over the configured subreddits, extending the
all_matches accumulator with the matches of each source in order. -/
def collect_matches (sources : List (List Char)) (keywords : List (List Char))
    (hot : List Char → List RawPost × Bool) : List Candidate :=
  sources.foldl (fun acc s => acc ++ fetch_matching_posts s keywords (hot s)) []

/-- Body of main with the configuration passed explicitly.  A failure of the
praw constructor is not caught anywhere, so it ends the run before the scan
loop; every later failure has been absorbed inside the stage functions. -/
def mainWith (sources : List (List Char)) (keywords : List (List Char))
    (maxResults : Nat) (w : World) : RunResult :=
  match w.redditSetup with
  | Except.error e => ⟨Except.error e, [], [], none⟩
  | Except.ok _ =>
      let all_matches := collect_matches sources keywords w.hot
      if all_matches.isEmpty then ⟨Except.ok (), sources, [], none⟩
      else
        let filtered := filter_with_ai (score_post_with_ai w.oracle) all_matches maxResults
        if filtered.isEmpty then ⟨Except.ok (), sources, [], none⟩
        else ⟨Except.ok (), sources, send_to_slack w.slack filtered, some filtered.length⟩

/-- main of src/reddit.py, with the hardcoded configuration. -/
def main (w : World) : RunResult := mainWith SUBREDDITS KEYWORDS MAX_POSTS_PER_DAY w

/-- The list of (score, post) pairs accumulated by the loop of filter_with_ai. -/
def scoredList (score : Candidate → Int) (posts : List Candidate) : List (Int × Candidate) :=
  (posts.filter (fun p => decide (0 < score p))).map (fun p => (score p, p))

/-! Concrete sample data used by witnesses and counterexamples. -/

def samplePost : RawPost := ⟨['v', 'i', 'n', 't', 'a', 'g', 'e'], [], [], []⟩

def sampleCandidate : Candidate := toCandidate ['A'] samplePost

/-- Raw posts used in the partial-failure and delivery scenarios. -/
def postA : RawPost := ⟨['v', 'a'], [], [], ['a']⟩

def postB : RawPost := ⟨['v', 'b'], [], [], ['b']⟩

def postC : RawPost := ⟨['v', 'c'], [], [], ['c']⟩

/-- A world of hot listings in which source B raises mid-iteration, after
having yielded one matching post. -/
def hotPartial : List Char → List RawPost × Bool := fun s =>
  if s = ['A'] then ([postA], false)
  else if s = ['B'] then ([postB], true)
  else ([postC], false)

/-- A world of hot listings in which source B fails before yielding anything. -/
def hotEmptyFail : List Char → List RawPost × Bool := fun s =>
  if s = ['A'] then ([postA], false) else ([], true)

/-- Candidates used in the delivery scenarios. -/
def candA : Candidate := toCandidate ['A'] postA

def candB : Candidate := toCandidate ['A'] postB

def candC : Candidate := toCandidate ['A'] postC

/-- A webhook that raises on the second call (index 1) and returns 200
otherwise. -/
def slackFailSecond : Nat → SlackResult :=
  fun i => if i = 1 then SlackResult.exn else SlackResult.ok 200

/-- World of the delivery scenario: one source yields three matching posts,
the oracle scores them 3, 2, 1, and the webhook fails on the second call. -/
def worldNotify : World :=
  ⟨Except.ok (), fun _ => ([postA, postB, postC], false),
   fun c => if c = candA then some ['3'] else if c = candB then some ['2'] else some ['1'],
   slackFailSecond⟩

/-- A world whose praw constructor raises. -/
def worldBadCreds : World :=
  ⟨Except.error ("invalid credentials"), fun _ => ([], false),
   fun _ => none, fun _ => SlackResult.exn⟩

/-- A world whose oracle call raises on every candidate. -/
def worldOracleDown : World :=
  ⟨Except.ok (), fun _ => ([postA], false), fun _ => none, fun _ => SlackResult.ok 200⟩

/-! Helper lemmas about the accumulator loops. -/

theorem foldl_ite_append_prop {α β : Type} (P : α → Prop) [DecidablePred P] (f : α → β) :
    ∀ (l : List α) (acc : List β),
      l.foldl (fun a x => if P x then a ++ [f x] else a) acc
        = acc ++ (l.filter (fun x => decide (P x))).map f := by
  intro l
  induction l with
  | nil => intro acc; simp
  | cons x xs ih =>
      intro acc
      by_cases h : P x
      · simp [List.foldl_cons, if_pos h, ih, h]
      · simp [List.foldl_cons, if_neg h, ih, h]

theorem foldl_ite_append_bool {α β : Type} (q : α → Bool) (f : α → β) :
    ∀ (l : List α) (acc : List β),
      l.foldl (fun a x => if q x then a ++ [f x] else a) acc
        = acc ++ (l.filter q).map f := by
  intro l
  induction l with
  | nil => intro acc; simp
  | cons x xs ih =>
      intro acc
      by_cases h : q x
      · simp [List.foldl_cons, if_pos h, ih, h]
      · simp [List.foldl_cons, h, ih]

theorem foldl_append_join {α β : Type} (g : α → List β) :
    ∀ (l : List α) (acc : List β),
      l.foldl (fun a s => a ++ g s) acc = acc ++ (l.map g).flatten := by
  intro l
  induction l with
  | nil => intro acc; simp
  | cons x xs ih => intro acc; simp [List.foldl_cons, ih]

/-! Helper lemmas about strings and parsing. -/

theorem isSubstr_infix_iff (needle : List Char) :
    ∀ haystack : List Char, isSubstr needle haystack = true ↔ needle <:+: haystack := by
  intro haystack
  induction haystack with
  | nil =>
      simp [isSubstr, List.isEmpty_iff]
  | cons c rest ih =>
      simp only [isSubstr, Bool.or_eq_true, List.isPrefixOf_iff_prefix, ih]
      exact Iff.symm List.infix_cons_iff

theorem isDigit_false_of_isWhitespace (c : Char) (h : c.isWhitespace = true) :
    c.isDigit = false := by
  simp only [Char.isWhitespace, Bool.or_eq_true, decide_eq_true_eq] at h
  rcases h with ((h1 | h1) | h1) | h1 <;> (subst h1; decide)

theorem filter_dropWhile_of_excluded {α : Type} (p q : α → Bool)
    (hpq : ∀ a, q a = true → p a = false) :
    ∀ l : List α, (l.dropWhile q).filter p = l.filter p := by
  intro l
  induction l with
  | nil => simp
  | cons x xs ih =>
      by_cases h : q x
      · rw [List.dropWhile_cons_of_pos h, ih, List.filter_cons, hpq x h]
        simp
      · rw [List.dropWhile_cons_of_neg (by simp [h])]

theorem extractDigits_pyStrip (s : List Char) :
    extractDigits (pyStrip s) = extractDigits s := by
  unfold extractDigits pyStrip
  rw [List.filter_reverse,
      filter_dropWhile_of_excluded _ _ isDigit_false_of_isWhitespace,
      List.filter_reverse, List.reverse_reverse,
      filter_dropWhile_of_excluded _ _ isDigit_false_of_isWhitespace]

theorem pyInt_nonneg_aux (ds : List Char) :
    ∀ n : Int, 0 ≤ n →
      0 ≤ ds.foldl (fun m c => 10 * m + ((c.toNat - 48 : Nat) : Int)) n := by
  induction ds with
  | nil => intro n hn; simpa using hn
  | cons c cs ih =>
      intro n hn
      rw [List.foldl_cons]
      exact ih _ (by positivity)

theorem pyInt_nonneg (ds : List Char) : 0 ≤ pyInt ds :=
  pyInt_nonneg_aux ds 0 le_rfl

theorem pyInt_eq_ofDigits (ds : List Char) :
    pyInt ds = ((Nat.ofDigits 10 ((ds.map fun c => c.toNat - 48).reverse) : Nat) : Int) := by
  induction ds using List.reverseRecOn with
  | nil => simp [pyInt]
  | append_singleton ds c ih =>
      have hfold : pyInt (ds ++ [c])
          = 10 * pyInt ds + ((c.toNat - 48 : Nat) : Int) := by
        unfold pyInt
        rw [List.foldl_append]
        rfl
      rw [hfold, ih]
      rw [List.map_append, List.reverse_append]
      simp [Nat.ofDigits_cons]
      push_cast
      ring

/-! Helper lemmas about the stable descending sort. -/

theorem mem_insertDesc {α : Type} (x z : Int × α) :
    ∀ l : List (Int × α), z ∈ insertDesc x l ↔ z = x ∨ z ∈ l := by
  intro l
  induction l with
  | nil => simp [insertDesc]
  | cons y ys ih =>
      by_cases h : y.1 < x.1
      · simp only [insertDesc, if_pos h, List.mem_cons]
      · simp only [insertDesc, if_neg h, List.mem_cons, ih]
        tauto

theorem pairwise_insertDesc {α : Type} (x : Int × α) :
    ∀ l : List (Int × α), l.Pairwise (fun a b => b.1 ≤ a.1) →
      (insertDesc x l).Pairwise (fun a b => b.1 ≤ a.1) := by
  intro l
  induction l with
  | nil => intro _; simp [insertDesc]
  | cons y ys ih =>
      intro hp
      rw [List.pairwise_cons] at hp
      obtain ⟨hy, hys⟩ := hp
      by_cases h : y.1 < x.1
      · rw [insertDesc, if_pos h, List.pairwise_cons]
        refine ⟨?_, List.pairwise_cons.mpr ⟨hy, hys⟩⟩
        intro b hb
        rcases List.mem_cons.mp hb with hb | hb
        · exact hb ▸ le_of_lt h
        · exact (hy b hb).trans (le_of_lt h)
      · rw [insertDesc, if_neg h, List.pairwise_cons]
        refine ⟨?_, ih hys⟩
        intro b hb
        rcases (mem_insertDesc x b ys).mp hb with hb | hb
        · exact hb ▸ not_lt.mp h
        · exact hy b hb

theorem filter_insertDesc {α : Type} (k : Int) (x : Int × α) :
    ∀ l : List (Int × α), l.Pairwise (fun a b => b.1 ≤ a.1) →
      (insertDesc x l).filter (fun q => decide (q.1 = k))
        = l.filter (fun q => decide (q.1 = k)) ++ if x.1 = k then [x] else [] := by
  intro l
  induction l with
  | nil =>
      intro _
      by_cases hx : x.1 = k <;> simp [insertDesc, List.filter, hx]
  | cons y ys ih =>
      intro hp
      rw [List.pairwise_cons] at hp
      obtain ⟨hy, hys⟩ := hp
      by_cases h : y.1 < x.1
      · rw [insertDesc, if_pos h]
        by_cases hx : x.1 = k
        · have hnil : (y :: ys).filter (fun q => decide (q.1 = k)) = [] := by
            rw [List.filter_eq_nil_iff]
            intro a ha
            simp only [decide_eq_true_eq]
            intro hk
            rw [hx] at h
            rcases List.mem_cons.mp ha with ha | ha
            · subst ha; rw [hk] at h; exact lt_irrefl k h
            · have hay := hy a ha
              rw [hk] at hay
              exact absurd (lt_of_le_of_lt hay h) (lt_irrefl k)
          rw [List.filter_cons_of_pos (by simp [hx]), hnil, if_pos hx]
          rfl
        · rw [List.filter_cons_of_neg (by simp [hx]), if_neg hx, List.append_nil]
      · rw [insertDesc, if_neg h]
        rw [List.filter_cons, List.filter_cons, ih hys]
        by_cases hyk : y.1 = k <;> simp [hyk]

theorem foldl_insertDesc_pairwise {α : Type} :
    ∀ (l acc : List (Int × α)), acc.Pairwise (fun a b => b.1 ≤ a.1) →
      (l.foldl (fun a x => insertDesc x a) acc).Pairwise (fun a b => b.1 ≤ a.1) := by
  intro l
  induction l with
  | nil => intro acc h; simpa using h
  | cons x xs ih =>
      intro acc h
      rw [List.foldl_cons]
      exact ih _ (pairwise_insertDesc x acc h)

theorem foldl_insertDesc_filter {α : Type} (k : Int) :
    ∀ (l acc : List (Int × α)), acc.Pairwise (fun a b => b.1 ≤ a.1) →
      (l.foldl (fun a x => insertDesc x a) acc).filter (fun q => decide (q.1 = k))
        = acc.filter (fun q => decide (q.1 = k)) ++ l.filter (fun q => decide (q.1 = k)) := by
  intro l
  induction l with
  | nil => intro acc h; simp
  | cons x xs ih =>
      intro acc h
      rw [List.foldl_cons, ih _ (pairwise_insertDesc x acc h),
          filter_insertDesc k x acc h, List.filter_cons]
      by_cases hx : x.1 = k <;> simp [hx]

theorem foldl_insertDesc_mem {α : Type} (z : Int × α) :
    ∀ (l acc : List (Int × α)),
      z ∈ l.foldl (fun a x => insertDesc x a) acc ↔ z ∈ acc ∨ z ∈ l := by
  intro l
  induction l with
  | nil => intro acc; simp
  | cons x xs ih =>
      intro acc
      rw [List.foldl_cons, ih, mem_insertDesc]
      simp only [List.mem_cons]
      tauto

theorem sortDesc_pairwise {α : Type} (l : List (Int × α)) :
    (sortDesc l).Pairwise (fun a b => b.1 ≤ a.1) :=
  foldl_insertDesc_pairwise l [] (by simp)

theorem sortDesc_filter {α : Type} (k : Int) (l : List (Int × α)) :
    (sortDesc l).filter (fun q => decide (q.1 = k)) = l.filter (fun q => decide (q.1 = k)) := by
  have h := foldl_insertDesc_filter k l [] (by simp)
  simpa [sortDesc] using h

theorem mem_sortDesc {α : Type} (z : Int × α) (l : List (Int × α)) :
    z ∈ sortDesc l ↔ z ∈ l := by
  have h := foldl_insertDesc_mem z l []
  simpa [sortDesc] using h

/-! Characterizations of the stage functions. -/

theorem filter_with_ai_eq (score : Candidate → Int) (posts : List Candidate) (cap : Nat) :
    filter_with_ai score posts cap
      = ((sortDesc (scoredList score posts)).take cap).map Prod.snd := by
  unfold filter_with_ai scoredList
  rw [foldl_ite_append_prop (fun post => 0 < score post) (fun post => (score post, post))
        posts []]
  rw [List.nil_append]

theorem mem_scoredList {score : Candidate → Int} {posts : List Candidate}
    {q : Int × Candidate} (h : q ∈ scoredList score posts) :
    q.1 = score q.2 ∧ 0 < q.1 ∧ q.2 ∈ posts := by
  unfold scoredList at h
  rcases List.mem_map.mp h with ⟨p, hp, rfl⟩
  rcases List.mem_filter.mp hp with ⟨hmem, hpos⟩
  exact ⟨rfl, by simpa using hpos, hmem⟩

theorem mem_filter_with_ai {score : Candidate → Int} {posts : List Candidate} {cap : Nat}
    {p : Candidate} (h : p ∈ filter_with_ai score posts cap) :
    p ∈ posts ∧ 0 < score p := by
  rw [filter_with_ai_eq] at h
  rcases List.mem_map.mp h with ⟨q, hq, rfl⟩
  have hq2 : q ∈ sortDesc (scoredList score posts) := List.mem_of_mem_take hq
  have hq3 : q ∈ scoredList score posts := (mem_sortDesc q _).mp hq2
  obtain ⟨h1, h2, h3⟩ := mem_scoredList hq3
  exact ⟨h3, h1 ▸ h2⟩

theorem take_sortDesc_fst {score : Candidate → Int} {posts : List Candidate} {cap : Nat}
    {q : Int × Candidate} (h : q ∈ (sortDesc (scoredList score posts)).take cap) :
    q.1 = score q.2 :=
  (mem_scoredList ((mem_sortDesc q _).mp (List.mem_of_mem_take h))).1

theorem send_to_slack_aux (slack : Nat → SlackResult) :
    ∀ (posts : List Candidate) (acc : List (List Char × SlackResult)) (n : Nat),
      (posts.foldl
        (fun st post => (st.1 ++ [(formatMessage post, slack st.2)], st.2 + 1))
        (acc, n))
        = (acc ++ (posts.enumFrom n).map (fun q => (formatMessage q.2, slack q.1)),
            n + posts.length) := by
  intro posts
  induction posts with
  | nil => intro acc n; simp
  | cons p ps ih =>
      intro acc n
      rw [List.foldl_cons, ih, List.enumFrom_cons]
      simp [Nat.add_comm, Nat.add_assoc, Nat.add_left_comm]

theorem send_to_slack_eq (slack : Nat → SlackResult) (posts : List Candidate) :
    send_to_slack slack posts
      = posts.enum.map (fun q => (formatMessage q.2, slack q.1)) := by
  unfold send_to_slack
  rw [send_to_slack_aux slack posts [] 0]
  rfl

theorem send_to_slack_messages (slack : Nat → SlackResult) (posts : List Candidate) :
    (send_to_slack slack posts).map Prod.fst = posts.map formatMessage := by
  rw [send_to_slack_eq, List.map_map]
  have h : (Prod.fst ∘ fun q : Nat × Candidate => (formatMessage q.2, slack q.1))
      = fun q : Nat × Candidate => formatMessage q.2 := rfl
  rw [h]
  have h2 : (fun q : Nat × Candidate => formatMessage q.2)
      = formatMessage ∘ Prod.snd := rfl
  rw [h2, ← List.map_map, List.enum_map_snd]

theorem collect_matches_eq (sources : List (List Char)) (keywords : List (List Char))
    (hot : List Char → List RawPost × Bool) :
    collect_matches sources keywords hot
      = (sources.map (fun s => fetch_matching_posts s keywords (hot s))).flatten := by
  unfold collect_matches
  rw [foldl_append_join (fun s => fetch_matching_posts s keywords (hot s)) sources []]
  rw [List.nil_append]

theorem fetch_matching_posts_eq (subredditName : List Char) (keywords : List (List Char))
    (hot : List RawPost × Bool) :
    fetch_matching_posts subredditName keywords hot
      = List.map (toCandidate subredditName)
          (hot.1.filter
            (fun post =>
              keywords.any (fun k => isSubstr k (pyLower (post.title ++ ' ' :: post.selftext))))) := by
  unfold fetch_matching_posts
  rw [foldl_ite_append_bool
        (fun post =>
          keywords.any (fun k => isSubstr k (pyLower (post.title ++ ' ' :: post.selftext))))
        (toCandidate subredditName) hot.1 []]
  rw [List.nil_append]

/-! Claim C1. -/

/-- C1 (amended): scoring is total — score_post_with_ai is a total function,
every failure of the oracle call and every undigested response is absorbed
into the returned value — and the returned integer is always nonnegative,
with 0 returned when the call fails; the value is however not clamped to
max_scale = 10 (see the counterexample for the original claim). -/
theorem score_total_nonneg (oracle : Candidate → Option (List Char)) (post : Candidate) :
    0 ≤ score_post_with_ai oracle post ∧
      (oracle post = none → score_post_with_ai oracle post = 0) := by
  constructor
  · unfold score_post_with_ai
    cases h : oracle post with
    | none => simp
    | some response =>
        by_cases he : (extractDigits (pyStrip response)).isEmpty
        · simp [he]
        · simp [he, pyInt_nonneg]
  · intro h
    unfold score_post_with_ai
    rw [h]

/-- C1 witness: the amended theorem applied at a concrete oracle failure. -/
theorem score_total_nonneg_witness :
    0 ≤ score_post_with_ai (fun _ => none) sampleCandidate ∧
      score_post_with_ai (fun _ => none) sampleCandidate = 0 :=
  ⟨(score_total_nonneg (fun _ => none) sampleCandidate).1,
   (score_total_nonneg (fun _ => none) sampleCandidate).2 rfl⟩

/-- C1 counterexample: a three-digit oracle response yields score 100, which is
outside [0, max_scale] with max_scale = 10, refuting the claimed upper bound. -/
theorem score_exceeds_scale_cex :
    score_post_with_ai (fun _ => some ['1', '0', '0']) sampleCandidate = 100 ∧
      ¬ score_post_with_ai (fun _ => some ['1', '0', '0']) sampleCandidate ≤ 10 := by
  decide

/-! Claim C9. -/

/-- C9: the scorer parses the oracle response by extracting its digit
characters and reading them as a decimal integer (the number whose decimal
digit sequence, least significant first, is the reversed digit extraction);
a response with no digits scores 0, and a failed request scores 0. -/
theorem score_parses_digits (oracle : Candidate → Option (List Char)) (post : Candidate) :
    (oracle post = none → score_post_with_ai oracle post = 0) ∧
      ∀ s, oracle post = some s →
        (extractDigits s = [] → score_post_with_ai oracle post = 0) ∧
        score_post_with_ai oracle post
          = ((Nat.ofDigits 10
              ((List.map (fun c => c.toNat - 48) (extractDigits s)).reverse) : Nat) : Int) := by
  constructor
  · intro h
    unfold score_post_with_ai
    rw [h]
  · intro s hs
    unfold score_post_with_ai
    rw [hs]
    simp only [extractDigits_pyStrip]
    by_cases he : (extractDigits s).isEmpty
    · have he2 : extractDigits s = [] := List.isEmpty_iff.mp he
      constructor
      · intro _; simp [he]
      · simp [he, he2]
    · have he2 : ¬ extractDigits s = [] := by simpa [List.isEmpty_iff] using he
      constructor
      · intro h0; exact absurd h0 he2
      · simp only [he, Bool.false_eq_true, if_false]
        exact pyInt_eq_ofDigits _

/-- C9 witness: a response with interleaved junk parses to the digits 3, 4
read as 34, and a failing request parses to 0. -/
theorem score_parses_digits_witness :
    score_post_with_ai (fun _ => some ['a', '3', 'b', '4']) sampleCandidate = 34 ∧
      score_post_with_ai (fun _ => none) sampleCandidate = 0 := by
  refine ⟨?_, (score_parses_digits (fun _ => none) sampleCandidate).1 rfl⟩
  have h := (score_parses_digits (fun _ => some ['a', '3', 'b', '4']) sampleCandidate).2
      ['a', '3', 'b', '4'] rfl
  exact h.2.trans (by decide)

/-! Claim C2. -/

/-- C2: for every score assignment, every input list and every cap, the batch
selection filter_with_ai returns at most cap candidates, in order of
descending score, and no candidate scoring 0 appears in the output (the
filter of the output by score 0 is empty), regardless of whether the cap is
reached. -/
theorem selection_bounded_sorted_no_zero (score : Candidate → Int)
    (posts : List Candidate) (cap : Nat) :
    (filter_with_ai score posts cap).length ≤ cap ∧
      (filter_with_ai score posts cap).Pairwise (fun a b => score b ≤ score a) ∧
      (filter_with_ai score posts cap).filter (fun p => decide (score p = 0)) = [] := by
  refine ⟨?_, ?_, ?_⟩
  · rw [filter_with_ai_eq, List.length_map, List.length_take]
    exact min_le_left _ _
  · rw [filter_with_ai_eq, List.pairwise_map]
    have hs : (sortDesc (scoredList score posts)).Pairwise (fun a b => b.1 ≤ a.1) :=
      sortDesc_pairwise _
    have ht := hs.sublist (List.take_sublist cap _)
    exact List.Pairwise.imp_of_mem
      (fun ha hb hr => by
        rw [take_sortDesc_fst ha, take_sortDesc_fst hb] at hr
        exact hr) ht
  · rw [List.filter_eq_nil_iff]
    intro p hp
    simp only [decide_eq_true_eq]
    intro h0
    have h1 := (mem_filter_with_ai hp).2
    omega

/-! Claim C3. -/

/-- C3: selection ordering is stable — for every score assignment and every
score value k, the candidates of the output that score k form a prefix of the
candidates of the input that score k; in particular any two equal-scoring
candidates appear in the output in the relative order they had in the input
to the scorer. -/
theorem selection_stable (score : Candidate → Int) (posts : List Candidate)
    (cap : Nat) (k : Int) :
    (filter_with_ai score posts cap).filter (fun p => decide (score p = k))
      <+: posts.filter (fun p => decide (score p = k)) := by
  by_cases hk : 0 < k
  case neg =>
    have hnil : (filter_with_ai score posts cap).filter (fun p => decide (score p = k)) = [] := by
      rw [List.filter_eq_nil_iff]
      intro p hp
      simp only [decide_eq_true_eq]
      intro h0
      have h1 := (mem_filter_with_ai hp).2
      omega
    rw [hnil]
    exact List.nil_prefix
  case pos =>
    rw [filter_with_ai_eq, List.filter_map]
    have hcong : ((sortDesc (scoredList score posts)).take cap).filter
          ((fun p => decide (score p = k)) ∘ Prod.snd)
        = ((sortDesc (scoredList score posts)).take cap).filter
            (fun q => decide (q.1 = k)) := by
      apply List.filter_congr
      intro q hq
      simp only [Function.comp_apply]
      rw [take_sortDesc_fst hq]
    rw [hcong]
    have htake := List.take_prefix cap (sortDesc (scoredList score posts))
    have hpre : ((sortDesc (scoredList score posts)).take cap).filter
          (fun q => decide (q.1 = k))
        <+: (sortDesc (scoredList score posts)).filter (fun q => decide (q.1 = k)) :=
      htake.filter (fun q => decide (q.1 = k))
    have hstab := sortDesc_filter k (scoredList score posts)
    have hfinal : List.map Prod.snd
          ((scoredList score posts).filter (fun q => decide (q.1 = k)))
        = posts.filter (fun p => decide (score p = k)) := by
      unfold scoredList
      rw [List.filter_map, List.map_map]
      have h2 : (Prod.snd ∘ fun p : Candidate => ((score p, p) : Int × Candidate)) = id := rfl
      rw [h2, List.map_id, List.filter_filter]
      apply List.filter_congr
      intro p hp
      by_cases hpk : score p = k
      · simp [Function.comp_apply, hpk, hk]
      · simp [Function.comp_apply, hpk]
    have h5 := hpre.map Prod.snd
    rw [hstab, hfinal] at h5
    exact h5

/-! Claim C4. -/

/-- C4 (amended): a Candidate is produced for a post iff at least one keyword
is, verbatim, a substring of the lowercased combined title-and-body text.
The match is case-insensitive in the post text only: keywords are matched
with their own case (for the all-lowercase configured keywords the two
readings agree, but not for arbitrary keyword sets, see the counterexample). -/
theorem fetch_membership_iff (subredditName : List Char) (keywords : List (List Char))
    (posts : List RawPost) (err : Bool) (p : RawPost) (hp : p ∈ posts) :
    toCandidate subredditName p ∈ fetch_matching_posts subredditName keywords (posts, err) ↔
      ∃ k ∈ keywords, k <:+: pyLower (p.title ++ ' ' :: p.selftext) := by
  rw [fetch_matching_posts_eq]
  constructor
  · intro h
    rcases List.mem_map.mp h with ⟨q, hq, heq⟩
    rcases List.mem_filter.mp hq with ⟨hqmem, hqmatch⟩
    have htext : pyLower (q.title ++ ' ' :: q.selftext)
        = pyLower (p.title ++ ' ' :: p.selftext) := by
      have hfield := congrArg Candidate.text heq
      simpa [toCandidate] using hfield
    rw [htext] at hqmatch
    rcases List.any_eq_true.mp hqmatch with ⟨k, hk, hsub⟩
    exact ⟨k, hk, (isSubstr_infix_iff k _).mp hsub⟩
  · intro h
    rcases h with ⟨k, hk, hsub⟩
    apply List.mem_map.mpr
    refine ⟨p, List.mem_filter.mpr ⟨hp, ?_⟩, rfl⟩
    exact List.any_eq_true.mpr ⟨k, hk, (isSubstr_infix_iff k _).mpr hsub⟩

/-- C4 witness: the amended theorem applied to a singleton listing with a
lowercase keyword that occurs in the combined text. -/
theorem fetch_membership_iff_witness :
    toCandidate ['A'] samplePost
        ∈ fetch_matching_posts ['A'] [['v', 'i', 'n', 't', 'a', 'g', 'e']]
            ([samplePost], false) ↔
      ∃ k ∈ [['v', 'i', 'n', 't', 'a', 'g', 'e']],
        k <:+: pyLower (samplePost.title ++ ' ' :: samplePost.selftext) :=
  fetch_membership_iff ['A'] [['v', 'i', 'n', 't', 'a', 'g', 'e']] [samplePost] false
    samplePost (List.mem_singleton.mpr rfl)

/-- C4 counterexample: the keyword Vintage (capital V) is a case-insensitive
substring of the combined text of a post titled vintage, yet no candidate is
produced, because the code lowercases the text but not the keyword; this
refutes the claimed if-and-only-if under case-insensitive containment. -/
theorem keyword_case_sensitivity_cex :
    fetch_matching_posts ['A'] [['V', 'i', 'n', 't', 'a', 'g', 'e']]
        ([samplePost], false) = [] ∧
      pyLower ['V', 'i', 'n', 't', 'a', 'g', 'e']
        <:+: pyLower (samplePost.title ++ ' ' :: samplePost.selftext) := by
  refine ⟨by decide, ⟨[], [' '], by decide⟩⟩

/-! Claim C5. -/

/-- C5 (amended): collection tolerates per-source failure — the collected
list is always the concatenation, in configured order, of each source's own
matches, so an error in one source removes nothing from the others; the
failing source itself contributes the matches among the posts it yielded
before the error, which is the empty sequence exactly when the fetch fails
before yielding any post. -/
theorem collect_partial_failure (pre suf : List (List Char)) (f : List Char)
    (keywords : List (List Char)) (hot : List Char → List RawPost × Bool) :
    collect_matches (pre ++ f :: suf) keywords hot
        = collect_matches pre keywords hot
            ++ fetch_matching_posts f keywords (hot f)
            ++ collect_matches suf keywords hot ∧
      ((hot f).1 = [] →
        collect_matches (pre ++ f :: suf) keywords hot
          = collect_matches pre keywords hot ++ collect_matches suf keywords hot) := by
  have h1 : collect_matches (pre ++ f :: suf) keywords hot
      = collect_matches pre keywords hot
          ++ fetch_matching_posts f keywords (hot f)
          ++ collect_matches suf keywords hot := by
    rw [collect_matches_eq, collect_matches_eq, collect_matches_eq,
        List.map_append, List.map_cons, List.flatten_append, List.flatten_cons,
        List.append_assoc]
  refine ⟨h1, ?_⟩
  intro hf
  have h2 : fetch_matching_posts f keywords (hot f) = [] := by
    rw [fetch_matching_posts_eq, hf]
    rfl
  rw [h1, h2, List.append_nil]

/-- C5 witness: the amended theorem applied to sources A, B where B fails
before yielding any post, so B contributes the empty sequence. -/
theorem collect_partial_failure_witness :
    collect_matches [['A'], ['B']] [['v']] hotEmptyFail
        = collect_matches [['A']] [['v']] hotEmptyFail
            ++ fetch_matching_posts ['B'] [['v']] (hotEmptyFail ['B'])
            ++ collect_matches [] [['v']] hotEmptyFail ∧
      collect_matches [['A'], ['B']] [['v']] hotEmptyFail
        = collect_matches [['A']] [['v']] hotEmptyFail
            ++ collect_matches [] [['v']] hotEmptyFail :=
  ⟨(collect_partial_failure [['A']] [] ['B'] [['v']] hotEmptyFail).1,
   (collect_partial_failure [['A']] [] ['B'] [['v']] hotEmptyFail).2 (by decide)⟩

/-- C5 counterexample: source B raises an error during its fetch, yet the
collected set contains the candidate built from the post B yielded before
raising — the failing source does not contribute the empty sequence, refuting
that part of the claim (the other sources are indeed unaffected). -/
theorem failing_source_contribution_cex :
    (hotPartial ['B']).2 = true ∧
      collect_matches [['A'], ['B'], ['C']] [['v']] hotPartial
        = [toCandidate ['A'] postA, toCandidate ['B'] postB, toCandidate ['C'] postC] := by
  refine ⟨by decide, by decide⟩

/-! Claim C6. -/

/-- C6 (amended): a delivery failure for one item does not block the others —
send_to_slack makes exactly one call per selected candidate, in selection
order (the trace messages are the formatted candidates in order), and the
outcome of the i-th call is exactly the endpoint outcome of call i,
independent of the other calls; however the function returns no success
count, and the driver logs the selection size as the sent count. -/
theorem notifier_attempts_all (slack : Nat → SlackResult) (posts : List Candidate) :
    (send_to_slack slack posts).map Prod.fst = posts.map formatMessage ∧
      ∀ (i : Nat) (h : i < (send_to_slack slack posts).length),
        ((send_to_slack slack posts).get ⟨i, h⟩).2 = slack i := by
  refine ⟨send_to_slack_messages slack posts, ?_⟩
  intro i h
  rw [List.get_eq_getElem, List.getElem_of_eq (send_to_slack_eq slack posts)]
  simp [List.enum_eq_enumFrom]

/-- C6 witness: the amended theorem applied to a single delivery. -/
theorem notifier_attempts_all_witness :
    (send_to_slack slackFailSecond [candA]).map Prod.fst = [candA].map formatMessage ∧
      ((send_to_slack slackFailSecond [candA]).get ⟨0, by decide⟩).2 = slackFailSecond 0 :=
  ⟨(notifier_attempts_all slackFailSecond [candA]).1,
   (notifier_attempts_all slackFailSecond [candA]).2 0 (by decide)⟩

/-- C6 counterexample: with three selected items and the endpoint failing for
item 2 of 3, only two calls succeed, yet the pipeline reports 3 (the length
of the selection) as the sent count; send_to_slack itself returns the call
trace, never a success count.  This refutes the claimed reported count of 2. -/
theorem notifier_count_cex :
    ((send_to_slack slackFailSecond [candA, candB, candC]).filter
        (fun r => decide (r.2 = SlackResult.ok 200))).length = 2 ∧
      (mainWith [['A']] [['v']] 10 worldNotify).slackCalls
        = send_to_slack slackFailSecond [candA, candB, candC] ∧
      (mainWith [['A']] [['v']] 10 worldNotify).sentLog = some 3 := by
  refine ⟨by decide, by decide, by decide⟩

/-! Claim C7. -/

/-- The outcome recorded by mainWith is exactly the praw constructor outcome:
nothing later in the pipeline can change it. -/
theorem mainWith_outcome (sources keywords : List (List Char)) (cap : Nat) (w : World) :
    (mainWith sources keywords cap w).outcome = w.redditSetup := by
  unfold mainWith
  rcases hw : w.redditSetup with e | u
  · rfl
  · cases u
    dsimp only
    by_cases h1 : (collect_matches sources keywords w.hot).isEmpty
    · rw [if_pos h1]
    · rw [if_neg h1]
      by_cases h2 : (filter_with_ai (score_post_with_ai w.oracle)
          (collect_matches sources keywords w.hot) cap).isEmpty
      · rw [if_pos h2]
      · rw [if_neg h2]

/-- C7: a fatal setup error (a praw constructor failure) is the only error
class that stops the pipeline — the run outcome is an error exactly when the
constructor failed, with the same error — and when it happens the run aborts
immediately: no subreddit is scanned and no webhook call is made. -/
theorem fatal_setup_aborts (w : World) (e : String) :
    ((main w).outcome = Except.error e ↔ w.redditSetup = Except.error e) ∧
      (w.redditSetup = Except.error e → main w = ⟨Except.error e, [], [], none⟩) := by
  constructor
  · rw [show (main w).outcome = w.redditSetup from
        mainWith_outcome SUBREDDITS KEYWORDS MAX_POSTS_PER_DAY w]
  · intro h
    unfold main mainWith
    rw [h]

/-- C7 witness: the theorem applied to a run with failing credentials. -/
theorem fatal_setup_aborts_witness :
    main worldBadCreds = ⟨Except.error ("invalid credentials"), [], [], none⟩ :=
  (fatal_setup_aborts worldBadCreds ("invalid credentials")).2 rfl

/-! Claim C8. -/

theorem score_zero_of_none {oracle : Candidate → Option (List Char)} {post : Candidate}
    (h : oracle post = none) : score_post_with_ai oracle post = 0 := by
  unfold score_post_with_ai
  rw [h]

theorem filter_with_ai_eq_nil_of_zero (score : Candidate → Int) (posts : List Candidate)
    (cap : Nat) (h : ∀ p ∈ posts, score p = 0) : filter_with_ai score posts cap = [] := by
  rw [filter_with_ai_eq]
  have hs : scoredList score posts = [] := by
    unfold scoredList
    have hf : posts.filter (fun p => decide (0 < score p)) = [] := by
      rw [List.filter_eq_nil_iff]
      intro p hp
      simp [h p hp]
    rw [hf]
    rfl
  rw [hs]
  simp [sortDesc]

/-- C8: if the oracle call fails for every candidate, the final selection is
empty and the pipeline makes no webhook call at all (and reaches no sent-log
line), exiting early after scoring. -/
theorem no_delivery_when_all_scoring_fails (w : World)
    (h : ∀ c, w.oracle c = none) :
    (main w).slackCalls = [] ∧ (main w).sentLog = none := by
  unfold main mainWith
  rcases hw : w.redditSetup with e | u
  · exact ⟨rfl, rfl⟩
  · cases u
    dsimp only
    by_cases h1 : (collect_matches SUBREDDITS KEYWORDS w.hot).isEmpty
    · rw [if_pos h1]
      exact ⟨rfl, rfl⟩
    · rw [if_neg h1]
      have hz : filter_with_ai (score_post_with_ai w.oracle)
          (collect_matches SUBREDDITS KEYWORDS w.hot) MAX_POSTS_PER_DAY = [] :=
        filter_with_ai_eq_nil_of_zero _ _ _ (fun p _ => score_zero_of_none (h p))
      have h2 : (filter_with_ai (score_post_with_ai w.oracle)
          (collect_matches SUBREDDITS KEYWORDS w.hot) MAX_POSTS_PER_DAY).isEmpty = true := by
        rw [hz]
        rfl
      rw [if_pos h2]
      exact ⟨rfl, rfl⟩

/-- C8 witness: the theorem applied to a run whose oracle always fails. -/
theorem no_delivery_when_all_scoring_fails_witness :
    (main worldOracleDown).slackCalls = [] ∧ (main worldOracleDown).sentLog = none :=
  no_delivery_when_all_scoring_fails worldOracleDown (fun _ => rfl)

/-! Claim C10. -/

theorem score_post_with_ai_congr {o1 o2 : Candidate → Option (List Char)} {post : Candidate}
    (h : o1 post = o2 post) : score_post_with_ai o1 post = score_post_with_ai o2 post := by
  unfold score_post_with_ai
  rw [h]

theorem filter_with_ai_congr {s1 s2 : Candidate → Int} (posts : List Candidate) (cap : Nat)
    (h : ∀ p ∈ posts, s1 p = s2 p) :
    filter_with_ai s1 posts cap = filter_with_ai s2 posts cap := by
  rw [filter_with_ai_eq, filter_with_ai_eq]
  have hs : scoredList s1 posts = scoredList s2 posts := by
    unfold scoredList
    have hf : posts.filter (fun p => decide (0 < s1 p))
        = posts.filter (fun p => decide (0 < s2 p)) := by
      apply List.filter_congr
      intro p hp
      rw [h p hp]
    rw [hf]
    apply List.map_congr_left
    intro p hp
    rw [h p (List.mem_of_mem_filter hp)]
  rw [hs]

/-- C10: scoring and selection are deterministic — two runs whose oracles
return the same response for every candidate of the input produce identical
selections — and the Notifier issues exactly one delivery call per selected
item, in selection order. -/
theorem pipeline_deterministic (posts : List Candidate) (cap : Nat)
    (o1 o2 : Candidate → Option (List Char)) (slack : Nat → SlackResult)
    (h : ∀ p ∈ posts, o1 p = o2 p) :
    filter_with_ai (score_post_with_ai o1) posts cap
        = filter_with_ai (score_post_with_ai o2) posts cap ∧
      (send_to_slack slack (filter_with_ai (score_post_with_ai o1) posts cap)).map Prod.fst
        = (filter_with_ai (score_post_with_ai o1) posts cap).map formatMessage :=
  ⟨filter_with_ai_congr posts cap (fun p hp => score_post_with_ai_congr (h p hp)),
   send_to_slack_messages slack _⟩

/-- C10 witness: the theorem applied to two syntactically equal oracles on a
one-candidate input. -/
theorem pipeline_deterministic_witness :
    filter_with_ai (score_post_with_ai (fun _ => some ['9'])) [candA] 10
        = filter_with_ai (score_post_with_ai (fun _ => some ['9'])) [candA] 10 ∧
      (send_to_slack slackFailSecond
          (filter_with_ai (score_post_with_ai (fun _ => some ['9'])) [candA] 10)).map Prod.fst
        = (filter_with_ai (score_post_with_ai (fun _ => some ['9'])) [candA] 10).map
            formatMessage :=
  pipeline_deterministic [candA] 10 (fun _ => some ['9']) (fun _ => some ['9'])
    slackFailSecond (fun _ _ => rfl)

end RedditToSlack
